import Mathlib

/-!
Shallow embedding of the GoTodo service core: the accumulating validator,
the filter/sort/pagination layer, the owner-scoped todos model, the opaque
bearer-token issuer/verifier, and the authentication middleware.

Go machine integers are modelled as `Int` (the quantities involved — page
numbers, page sizes, record counts, ids, timestamps — stay far below the
64-bit range on every path reachable through validation).  Go `string` is
modelled as Lean `String`; `len(s)` on a Go string is the UTF-8 byte count,
modelled by `String.utf8ByteSize`, while `len([]rune(s))` is the rune count,
modelled by `String.length`.  Database tables are modelled as lists of rows,
SQL `WHERE` clauses as list filters, and `QueryRow` as taking the first
matching row.  Wall-clock time is an explicit `Int` parameter.  The SHA-256
digest and the base-32 encoder are opaque function parameters: every theorem
below holds for an arbitrary digest/encoder, which is exactly the way the
source uses them (the verifier re-derives the hash with the same function
the issuer used).
-/

/-! ## Validator (internal/data/validator, from the repository's notes) -/

/-- Embeds the `Validator` struct: an accumulating field-error map.  The Go
map from field key to message is modelled as an association list; `AddError`
below preserves the map's insert-if-absent behaviour. -/
structure Validator where
  Errors : List (String × String)
deriving Repr, DecidableEq

/-- Embeds `validator.New`: a validator with an empty error map. -/
def Validator.New : Validator := ⟨[]⟩

/-- Embeds `Validator.Valid`: true when no error has been recorded. -/
def Validator.Valid (v : Validator) : Bool := v.Errors.isEmpty

/-- Key lookup in the modelled error map (the `_, exists := v.Errors[key]`
test in `AddError`). -/
def Validator.hasError (v : Validator) (key : String) : Bool :=
  v.Errors.any (fun p => p.1 == key)

/-- Embeds `Validator.AddError`: record the message under `key` unless an
entry for `key` already exists. -/
def Validator.AddError (v : Validator) (key message : String) : Validator :=
  if v.hasError key then v else ⟨v.Errors ++ [(key, message)]⟩

/-- Embeds `Validator.Check`: record an error for `key` when `ok` is false. -/
def Validator.Check (v : Validator) (ok : Bool) (key message : String) : Validator :=
  if ok then v else v.AddError key message

/-- Modelled from the spec: the validator package's `PermittedValue` helper is
not under src (only its call sites in `ValidateFilters` are); the spec says an
out-of-allow-list value is rejected, so it is membership of the value in the
caller-supplied allow-list. -/
def PermittedValue (value : String) (permittedValues : List String) : Bool :=
  permittedValues.contains value

/-! ## Filters, Metadata (internal/data, filters file) -/

/-- Embeds the `Metadata` struct. -/
structure Metadata where
  CurrentPage : Int
  PageSize : Int
  FirstPage : Int
  LastPage : Int
  TotalRecords : Int
deriving Repr, DecidableEq

/-- Embeds the `Filters` struct.  The Go field `Sort` is named `SortVal`
here because `Sort` is a reserved word in Lean; every use below corresponds
to `f.SortVal` in the source. -/
structure Filters where
  Page : Int
  PageSize : Int
  SortVal : String
  Order : String
  SortSafeList : List String
  OrderSafeList : List String
deriving Repr, DecidableEq

/-- Embeds `calculateMetadata`.  Go's `/` on `int` truncates toward zero,
which is `Int.tdiv`. -/
def calculateMetadata (totalRecords page pageSize : Int) : Metadata :=
  { CurrentPage := page
    PageSize := pageSize
    FirstPage := 1
    LastPage := (totalRecords + pageSize - 1).tdiv pageSize
    TotalRecords := totalRecords }

/-- Embeds the range-for loop body of `Filters.sortColumn`: return the sort
value at its first occurrence in the safe list.  Falling off the loop is the
`panic("unsafe sort parameter")` branch, modelled as `none`. -/
def sortColumnScan (safeList : List String) (sort : String) : Option String :=
  match safeList with
  | [] => none
  | safeValue :: rest =>
      if sort == safeValue then some sort else sortColumnScan rest sort

/-- Embeds `Filters.sortColumn`; `none` is the panic on an out-of-allow-list
sort value. -/
def Filters.sortColumn (f : Filters) : Option String :=
  sortColumnScan f.SortSafeList f.SortVal

/-- Embeds `Filters.sortDirection`. -/
def Filters.sortDirection (f : Filters) : String :=
  if f.Order == "asc" then "ASC" else "DESC"

/-- Embeds `Filters.limit`. -/
def Filters.limit (f : Filters) : Int := f.PageSize

/-- Embeds `Filters.offset`. -/
def Filters.offset (f : Filters) : Int := (f.Page - 1) * f.PageSize

/-- Embeds `ValidateFilters` (the messages are abbreviated; only the field
keys matter to the error map's shape). -/
def ValidateFilters (v : Validator) (f : Filters) : Validator :=
  let v := v.Check (decide (f.Page > 0)) "page" "must be greater than 0"
  let v := v.Check (decide (f.Page ≤ 10000000)) "page" "must be less than ten million"
  let v := v.Check (decide (f.PageSize > 0)) "page_size" "must be greater than 0"
  let v := v.Check (decide (f.PageSize ≤ 100)) "page_size" "must be less than a hundred"
  let v := v.Check (PermittedValue f.SortVal f.SortSafeList) "sort" "is an invalid sort value"
  let v := v.Check (PermittedValue f.Order f.OrderSafeList) "order" "is an invalid order value"
  v

/-! ## Todos model (internal/data, owner-scoped todos file) -/

/-- The two sentinel errors of the data package (`ErrRecordNotFound`,
`ErrEditConflict` in models.go). -/
inductive DataErr where
  | recordNotFound
  | editConflict
deriving Repr, DecidableEq

/-- A row of the `todos` table.  The table carries a `user_id` column that
the `Todo` struct does not expose. -/
structure TodoRow where
  id : Int
  created_at : Int
  title : String
  description : String
  due_date : Int
  is_completed : Bool
  user_id : Int
deriving Repr, DecidableEq

/-- Embeds the `Todo` struct. -/
structure Todo where
  ID : Int
  CreatedAt : Int
  Title : String
  Description : String
  DueDate : Int
  IsCompleted : Bool
deriving Repr, DecidableEq

/-- The column list `SELECT id, created_at, title, description, due_date,
is_completed` scanned into a `Todo`. -/
def TodoRow.toTodo (r : TodoRow) : Todo :=
  ⟨r.id, r.created_at, r.title, r.description, r.due_date, r.is_completed⟩

/-- The WHERE clause shared by both queries of `GetAll`: the row belongs to
`userId`, and the full-text predicate over title/description matches the
search string, or the search string is empty.  The `to_tsvector @@
plainto_tsquery` predicate is kept opaque as the parameter `tsMatch`. -/
def todosWhere (tsMatch : String → String → Bool) (userId : Int) (search : String)
    (r : TodoRow) : Bool :=
  r.user_id == userId &&
    (tsMatch r.title search || tsMatch r.description search || search == "")

/-- Key of the ORDER BY column interpolated by `GetAll` (`due_date`,
`created_at`, or the completion flag from the sort safe list). -/
def TodoRow.columnKey (r : TodoRow) (col : String) : Int :=
  if col == "due_date" then r.due_date
  else if col == "created_at" then r.created_at
  else if r.is_completed then 1 else 0

/-- Row comparison realising `ORDER BY <col> <dir>, id ASC`. -/
def todoRowLE (col dir : String) (a b : TodoRow) : Bool :=
  if a.columnKey col == b.columnKey col then decide (a.id ≤ b.id)
  else if dir == "DESC" then decide (b.columnKey col < a.columnKey col)
  else decide (a.columnKey col < b.columnKey col)

namespace TodosModel

/-- Embeds `TodosModel.Get`: a non-positive id short-circuits to
`ErrRecordNotFound`; otherwise the row is looked up by `id = $1 AND user_id
= $2` and its absence is `ErrRecordNotFound`. -/
def Get (db : List TodoRow) (id userId : Int) : Except DataErr Todo :=
  if id < 1 then .error .recordNotFound
  else
    match db.find? (fun r => r.id == id && r.user_id == userId) with
    | some r => .ok r.toTodo
    | none => .error .recordNotFound

/-- Embeds `TodosModel.GetAll`: the count query over the owner-scoped
full-text predicate, then the page query with the same predicate ordered by
the validated sort column/direction with an `id ASC` tie-break, limited and
offset per the filters.  `none` is the propagated panic of
`Filters.sortColumn` on an unvalidated sort value. -/
def GetAll (tsMatch : String → String → Bool) (db : List TodoRow) (userId : Int)
    (search : String) (filters : Filters) : Option (List TodoRow × Metadata) :=
  let totalRecords : Int := ((db.filter (todosWhere tsMatch userId search)).length : Int)
  match filters.sortColumn with
  | none => none
  | some col =>
      let rows := db.filter (todosWhere tsMatch userId search)
      let sorted := rows.mergeSort (todoRowLE col filters.sortDirection)
      let page := (sorted.drop filters.offset.toNat).take filters.limit.toNat
      some (page, calculateMetadata totalRecords filters.Page filters.PageSize)

/-- Embeds `TodosModel.Update`: `UPDATE ... WHERE id = $5 AND user_id = $6
RETURNING id`; scanning zero returned rows (`sql.ErrNoRows`) is mapped to
`ErrEditConflict`.  Returns the table after the statement and the error. -/
def Update (db : List TodoRow) (userId : Int) (todo : Todo) :
    List TodoRow × Option DataErr :=
  let hit := fun r : TodoRow => r.id == todo.ID && r.user_id == userId
  let db2 := db.map (fun r =>
    if hit r then
      { r with title := todo.Title, description := todo.Description,
               due_date := todo.DueDate, is_completed := todo.IsCompleted }
    else r)
  if db.any hit then (db2, none) else (db2, some .editConflict)

end TodosModel

/-- Embeds `ValidateTodo` (on the update path): the title must be non-empty
and `len(todo.Title)` — the UTF-8 byte count of the Go string — must be at
most 500. -/
def ValidateTodo (v : Validator) (todo : Todo) : Validator :=
  let v := v.Check (todo.Title != "") "title" "must be provided"
  let v := v.Check (decide (todo.Title.utf8ByteSize ≤ 500)) "title"
    "must not have more than 500 characters long"
  v

/-- Embeds the inline title checks of `createTodoHandler` (cmd/api/todos.go):
the title must be non-empty and `len([]rune(todo.Title))` — the rune count —
must be at most 500. -/
def createTodoTitleChecks (todo : Todo) : Validator :=
  let v := Validator.New
  let v := v.Check (todo.Title != "") "title" "must be provided"
  let v := v.Check (decide (todo.Title.length ≤ 500)) "title"
    "must not be more than 500 characters long"
  v

/-- The handler's partial-update input: absent JSON fields leave the fetched
todo unchanged. -/
structure UpdateInput where
  Title : Option String
  Description : Option String
  DueDate : Option Int
  IsCompleted : Option Bool
deriving Repr, DecidableEq

/-- The responses the update handler can produce. -/
inductive HandlerResp where
  | notFoundResp
  | editConflictResp
  | failedValidationResp
  | serverErrorResp
  | okResp
deriving Repr, DecidableEq

/-- Embeds `updateTodoHandler` composed with the owner-scoped model layer:
read-before-update via `Get` (absence is the 404 path), merge the partial
input, validate, then conditional `Update` (conflict is the 409 path, any
other error the 500 path). -/
def updateTodoHandler (db : List TodoRow) (userId id : Int) (input : UpdateInput) :
    HandlerResp × List TodoRow :=
  match TodosModel.Get db id userId with
  | .error .recordNotFound => (.notFoundResp, db)
  | .error _ => (.serverErrorResp, db)
  | .ok todo0 =>
      let todo : Todo :=
        { todo0 with
          Title := input.Title.getD todo0.Title
          Description := input.Description.getD todo0.Description
          DueDate := input.DueDate.getD todo0.DueDate
          IsCompleted := input.IsCompleted.getD todo0.IsCompleted }
      if (ValidateTodo Validator.New todo).Valid then
        match TodosModel.Update db userId todo with
        | (db2, none) => (.okResp, db2)
        | (db2, some .editConflict) => (.editConflictResp, db2)
        | (db2, some _) => (.serverErrorResp, db2)
      else (.failedValidationResp, db)

/-! ## Tokens (internal/data, tokens file) -/

/-- Embeds the `ScopeAuthentication` constant. -/
def ScopeAuthentication : String := "Authentication"

/-- Embeds the `Token` struct; the SHA-256 digest (a byte slice) is a list
of bytes. -/
structure Token where
  Plaintext : String
  Hash : List Nat
  UserID : Int
  Expiry : Int
  Scope : String
deriving Repr, DecidableEq

/-- A row of the `tokens` table: the stored columns of `TokensModel.Insert`. -/
structure TokenRow where
  hash : List Nat
  user_id : Int
  expiry : Int
  scope : String
deriving Repr, DecidableEq

/-- A row of the `users` table as scanned by `GetForToken` (`users.id,
users.created_at, users.email, users.password_hash`). -/
structure UserRow where
  id : Int
  created_at : Int
  email : String
  password_hash : List Nat
deriving Repr, DecidableEq

/-- Errors of `GetForToken`: the sentinel `ErrRecordNotFound`, or any other
storage error passed through unchanged (`default: return nil, err`). -/
inductive TokenErr where
  | recordNotFound
  | backendFailure (e : String)
deriving Repr, DecidableEq

/-- Embeds `ValidateTokenPlainText`: the plaintext must be non-empty. -/
def ValidateTokenPlainText (v : Validator) (tokenPlaintext : String) : Validator :=
  v.Check (tokenPlaintext != "") "token" "must be provided"

/-- Embeds `generateToken`.  The crypto/rand bytes are the explicit
`randomBytes` parameter, the unpadded base-32 encoder and the SHA-256 digest
are the opaque parameters `base32NoPad` and `sha256`; `time.Now()` is `now`.
The plaintext is the encoding of the random bytes, the stored hash is the
digest of that plaintext, and the expiry is `now + ttl`. -/
def generateToken (sha256 : String → List Nat) (base32NoPad : List Nat → String)
    (now : Int) (randomBytes : List Nat) (userID ttl : Int) (scope : String) : Token :=
  let plaintext := base32NoPad randomBytes
  { Plaintext := plaintext
    Hash := sha256 plaintext
    UserID := userID
    Expiry := now + ttl
    Scope := scope }

namespace TokensModel

/-- Embeds `TokensModel.Insert`: append the stored columns as a row of the
`tokens` table. -/
def Insert (db : List TokenRow) (token : Token) : List TokenRow :=
  db ++ [⟨token.Hash, token.UserID, token.Expiry, token.Scope⟩]

/-- Embeds `TokensModel.New`: `generateToken` followed by `Insert`; returns
the token (with its one-time plaintext) and the table after the insert. -/
def New (sha256 : String → List Nat) (base32NoPad : List Nat → String)
    (db : List TokenRow) (now : Int) (randomBytes : List Nat)
    (userID ttl : Int) (scope : String) : Token × List TokenRow :=
  let token := generateToken sha256 base32NoPad now randomBytes userID ttl scope
  (token, Insert db token)

/-- Embeds `TokensModel.GetForToken`: re-derive the hash of the presented
plaintext with the same digest, then run the `users INNER JOIN tokens` query
filtered by `tokens.hash = $1 AND tokens.expiry > $2`; `QueryRow` yields the
first user having a matching unexpired token, and zero rows is
`ErrRecordNotFound`.  The `fault` parameter injects an arbitrary non-no-rows
storage failure, which the source returns unchanged. -/
def GetForToken (sha256 : String → List Nat) (users : List UserRow)
    (tokens : List TokenRow) (now : Int) (fault : Option String)
    (tokenPlaintext : String) : Except TokenErr UserRow :=
  match fault with
  | some e => .error (.backendFailure e)
  | none =>
      let tokenHash := sha256 tokenPlaintext
      match users.find? (fun u =>
          tokens.any (fun t =>
            u.id == t.user_id && t.hash == tokenHash && now < t.expiry)) with
      | some u => .ok u
      | none => .error .recordNotFound

end TokensModel

/-! ## Auth middleware (cmd/api, from the repository's notes) -/

/-- Worker for `stringsSplitSpace`: accumulates the current chunk (reversed)
and cuts at every space, like Go `strings.Split(s, " ")`. -/
def splitSpaceAux : List Char → List Char → List String
  | [], acc => [String.mk acc.reverse]
  | c :: rest, acc =>
      if c == ' ' then String.mk acc.reverse :: splitSpaceAux rest []
      else splitSpaceAux rest (c :: acc)

/-- Models Go `strings.Split(s, " ")`: the substrings of `s` between
occurrences of a single space (empty chunks included). -/
def stringsSplitSpace (s : String) : List String :=
  splitSpaceAux s.data []

/-- The three ways the middleware can dispose of a request: the 401
invalid-authentication rejection, the generic 500 rejection, or forwarding
to the wrapped handler with the resolved user bound into the context. -/
inductive AuthOutcome where
  | rejectedInvalidHeader
  | rejectedServerFailure
  | forwarded (u : UserRow)
deriving Repr, DecidableEq

/-- Embeds `protectedRouteMiddleware` (the `Vary: Authorization` response
header is a side effect outside this model): reject an absent header, a
header that does not split on spaces into exactly `Bearer` plus one part, or
an empty token, all without consulting storage; then resolve the token via
`GetForToken`, mapping `ErrRecordNotFound` to the same invalid-header
rejection and any other error to the generic server error. -/
def protectedRouteMiddleware (sha256 : String → List Nat) (users : List UserRow)
    (tokens : List TokenRow) (now : Int) (fault : Option String)
    (authorizationHeader : String) : AuthOutcome :=
  if authorizationHeader == "" then .rejectedInvalidHeader
  else
    let headerParts := stringsSplitSpace authorizationHeader
    if headerParts.length != 2 || headerParts.headD "" != "Bearer" then
      .rejectedInvalidHeader
    else
      let token := (headerParts.drop 1).headD ""
      if !(ValidateTokenPlainText Validator.New token).Valid then
        .rejectedInvalidHeader
      else
        match TokensModel.GetForToken sha256 users tokens now fault token with
        | .error .recordNotFound => .rejectedInvalidHeader
        | .error (.backendFailure _) => .rejectedServerFailure
        | .ok u => .forwarded u

/-- A title of 126 four-byte characters: 126 runes, but 504 UTF-8 bytes. -/
def multibyteTitle : String := String.mk (List.replicate 126 '𝄞')

/-! ### Validator lemmas -/

theorem Validator.check_errors_nil (v : Validator) (ok : Bool) (k m : String) :
    ((v.Check ok k m).Errors = []) ↔ (v.Errors = [] ∧ ok = true) := by
  cases ok with
  | true => simp [Validator.Check]
  | false =>
      simp only [Validator.Check, Bool.false_eq_true, if_false, Validator.AddError]
      constructor
      · intro h
        split at h
        · exact absurd h (by
            rename_i hk
            intro hnil
            rw [Validator.hasError, hnil] at hk
            simp [List.any] at hk)
        · simp at h
      · rintro ⟨_, h⟩
        exact absurd h (by simp)

theorem Validator.valid_iff_errors_nil (v : Validator) :
    v.Valid = true ↔ v.Errors = [] := by
  simp [Validator.Valid, List.isEmpty_iff]

/-- Characterisation of the validator state after `ValidateFilters` on a
fresh validator: valid exactly when every range check and both allow-list
memberships hold. -/
theorem validateFilters_valid_iff (f : Filters) :
    (ValidateFilters Validator.New f).Valid = true ↔
      (0 < f.Page ∧ f.Page ≤ 10000000 ∧ 0 < f.PageSize ∧ f.PageSize ≤ 100 ∧
        f.SortVal ∈ f.SortSafeList ∧ f.Order ∈ f.OrderSafeList) := by
  rw [Validator.valid_iff_errors_nil]
  simp only [ValidateFilters]
  rw [Validator.check_errors_nil, Validator.check_errors_nil,
    Validator.check_errors_nil, Validator.check_errors_nil,
    Validator.check_errors_nil, Validator.check_errors_nil]
  simp [Validator.New, PermittedValue, and_assoc, gt_iff_lt]

/-! ### sortColumn lemmas -/

theorem sortColumnScan_eq_some (l : List String) (s : String) :
    sortColumnScan l s = (if s ∈ l then some s else none) := by
  induction l with
  | nil => simp [sortColumnScan]
  | cons a rest ih =>
      by_cases h : s = a
      · simp [sortColumnScan, h]
      · simp only [sortColumnScan, ih, List.mem_cons]
        have : (s == a) = false := by simpa using h
        simp [this, h]

/-! ### Ceiling-division helper -/

theorem tdiv_pred_eq_ceil (t p : Int) (ht : 0 ≤ t) (hp : 1 ≤ p) :
    (t + p - 1).tdiv p = ⌈(t : ℚ) / (p : ℚ)⌉ := by
  have hp0 : (0 : Int) < p := by omega
  have hnum : (0 : Int) ≤ t + p - 1 := by omega
  rw [Int.tdiv_eq_ediv hnum (by omega)]
  have hdm := Int.ediv_add_emod (t + p - 1) p
  have hr0 : 0 ≤ (t + p - 1) % p := Int.emod_nonneg _ (by omega)
  have hr1 : (t + p - 1) % p < p := Int.emod_lt_of_pos _ hp0
  have hcomm : p * ((t + p - 1) / p) = ((t + p - 1) / p) * p := mul_comm _ _
  have h1 : t ≤ ((t + p - 1) / p) * p := by linarith
  have h2 : ((t + p - 1) / p) * p - p < t := by linarith
  have hpq : (0 : ℚ) < (p : ℚ) := by exact_mod_cast hp0
  symm
  rw [Int.ceil_eq_iff]
  constructor
  · rw [lt_div_iff₀ hpq]
    calc ((((t + p - 1) / p : Int) : ℚ) - 1) * (p : ℚ)
        = ((((t + p - 1) / p) * p - p : Int) : ℚ) := by push_cast; ring
      _ < ((t : Int) : ℚ) := by exact_mod_cast h2
  · rw [div_le_iff₀ hpq]
    exact_mod_cast h1

/-! ### Claim theorems: filter/sort/pagination layer -/

/-- Claim C8: limit is the page size, offset is (page - 1) * pageSize, and
calculateMetadata returns the ceiling of totalRecords / pageSize as the last
page (0 when totalRecords is 0), first page 1, and its inputs unchanged. -/
theorem pagination_arith (f : Filters) (t page p : Int) (ht : 0 ≤ t) (hp : 1 ≤ p) :
    f.limit = f.PageSize ∧
    f.offset = (f.Page - 1) * f.PageSize ∧
    (calculateMetadata t page p).LastPage = ⌈(t : ℚ) / (p : ℚ)⌉ ∧
    (calculateMetadata t page p).FirstPage = 1 ∧
    (calculateMetadata t page p).CurrentPage = page ∧
    (calculateMetadata t page p).PageSize = p ∧
    (calculateMetadata t page p).TotalRecords = t := by
  refine ⟨rfl, rfl, ?_, rfl, rfl, rfl, rfl⟩
  simpa [calculateMetadata] using tdiv_pred_eq_ceil t p ht hp

/-- Witness for C8 at the spec's concrete inputs. -/
theorem pagination_arith_witness :
    (Filters.mk 1 10 "created_at" "desc" [] []).offset = 0 ∧
    (Filters.mk 3 10 "created_at" "desc" [] []).offset = 20 ∧
    (calculateMetadata 25 1 10).LastPage = 3 ∧
    (calculateMetadata 0 1 10).LastPage = 0 ∧
    (calculateMetadata 25 1 10).LastPage = ⌈(25 : ℚ) / (10 : ℚ)⌉ := by
  refine ⟨?_, ?_, by decide, by decide, ?_⟩
  · have h := pagination_arith (Filters.mk 1 10 "created_at" "desc" [] []) 0 1 1
      (by norm_num) (by norm_num)
    rw [h.2.1]; norm_num
  · have h := pagination_arith (Filters.mk 3 10 "created_at" "desc" [] []) 0 1 1
      (by norm_num) (by norm_num)
    rw [h.2.1]; norm_num
  · exact (pagination_arith (Filters.mk 1 10 "created_at" "desc" [] []) 25 1 10
      (by norm_num) (by norm_num)).2.2.1

/-- Claim C7: on a fresh validator, ValidateFilters is valid exactly when
page and page size are in range and sort and order are in their allow-lists;
on an input with all four fields invalid at once, the error map holds a
distinct entry for each field. -/
theorem validateFilters_accumulates_all_fields (f : Filters) :
    ((ValidateFilters Validator.New f).Valid = true ↔
      (1 ≤ f.Page ∧ f.Page ≤ 10000000 ∧ 1 ≤ f.PageSize ∧ f.PageSize ≤ 100 ∧
        f.SortVal ∈ f.SortSafeList ∧ f.Order ∈ f.OrderSafeList)) ∧
    ((ValidateFilters Validator.New
        ⟨0, 0, "drop table", "sideways", ["is_complete", "due_date", "created_at"],
          ["asc", "desc"]⟩).hasError "page" = true ∧
      (ValidateFilters Validator.New
        ⟨0, 0, "drop table", "sideways", ["is_complete", "due_date", "created_at"],
          ["asc", "desc"]⟩).hasError "page_size" = true ∧
      (ValidateFilters Validator.New
        ⟨0, 0, "drop table", "sideways", ["is_complete", "due_date", "created_at"],
          ["asc", "desc"]⟩).hasError "sort" = true ∧
      (ValidateFilters Validator.New
        ⟨0, 0, "drop table", "sideways", ["is_complete", "due_date", "created_at"],
          ["asc", "desc"]⟩).hasError "order" = true) := by
  constructor
  · rw [validateFilters_valid_iff]
    constructor
    · rintro ⟨h1, h2, h3, h4, h5, h6⟩
      exact ⟨by omega, h2, by omega, h4, h5, h6⟩
    · rintro ⟨h1, h2, h3, h4, h5, h6⟩
      exact ⟨by omega, h2, by omega, h4, h5, h6⟩
  · exact ⟨by decide, by decide, by decide, by decide⟩

/-- Claim C6: sortColumn returns the sort value when it is in the safe list
and panics (modelled as none) otherwise; when ValidateFilters accepted the
same filters, the panic branch is unreachable. -/
theorem filters_sortColumn_safe_or_panic (f : Filters) :
    (f.SortVal ∈ f.SortSafeList → f.sortColumn = some f.SortVal) ∧
    (f.SortVal ∉ f.SortSafeList → f.sortColumn = none) ∧
    ((ValidateFilters Validator.New f).Valid = true → f.sortColumn = some f.SortVal) := by
  have hs := sortColumnScan_eq_some f.SortSafeList f.SortVal
  refine ⟨?_, ?_, ?_⟩
  · intro h
    rw [Filters.sortColumn, hs, if_pos h]
  · intro h
    rw [Filters.sortColumn, hs, if_neg h]
  · intro h
    have hmem := (validateFilters_valid_iff f).mp h
    rw [Filters.sortColumn, hs, if_pos hmem.2.2.2.2.1]

/-- Witness for C6: a validated sort value is returned; an out-of-list one
panics. -/
theorem filters_sortColumn_safe_or_panic_witness :
    Filters.sortColumn
      ⟨1, 10, "created_at", "desc", ["is_complete", "due_date", "created_at"],
        ["asc", "desc"]⟩ = some "created_at" ∧
    Filters.sortColumn
      ⟨1, 10, "drop table", "desc", ["is_complete", "due_date", "created_at"],
        ["asc", "desc"]⟩ = none := by
  constructor
  · exact (filters_sortColumn_safe_or_panic _).2.2 (by decide)
  · exact (filters_sortColumn_safe_or_panic _).2.1 (by decide)

/-- Claim C10: sortDirection maps exactly the order value "asc" to "ASC" and
every other order value, validated or not, silently to "DESC". -/
theorem filters_sortDirection_default_desc (f : Filters) :
    (f.sortDirection = "ASC" ↔ f.Order = "asc") ∧
    (f.sortDirection = "DESC" ↔ f.Order ≠ "asc") := by
  unfold Filters.sortDirection
  by_cases h : f.Order = "asc" <;> simp [h]

/-! ### Claim theorem: todo title validation -/

set_option maxRecDepth 4000 in
/-- Claim C9, evaluated at the failing input: a 126-character multi-byte
title is accepted by the create handler's rune-count check but rejected by
ValidateTodo's byte-count check, though it is non-empty and far under 500
characters. -/
theorem validateTodo_bytecount_rejects_multibyte :
    multibyteTitle ≠ "" ∧
    multibyteTitle.length = 126 ∧
    multibyteTitle.utf8ByteSize = 504 ∧
    (createTodoTitleChecks ⟨0, 0, multibyteTitle, "", 0, false⟩).Valid = true ∧
    (ValidateTodo Validator.New ⟨0, 0, multibyteTitle, "", 0, false⟩).Valid = false := by
  exact ⟨by decide, by decide, by decide, by decide, by decide⟩

/-! ### Claim theorems: update conflict handling -/

theorem update_no_hit (db : List TodoRow) (userId : Int) (todo : Todo)
    (hnone : ∀ r ∈ db, ¬(r.id = todo.ID ∧ r.user_id = userId)) :
    TodosModel.Update db userId todo = (db, some DataErr.editConflict) := by
  have hf : ∀ r ∈ db, (r.id == todo.ID && r.user_id == userId) = false := by
    intro r hr
    have h := hnone r hr
    have : ¬(r.id == todo.ID && r.user_id == userId) = true := by
      simp only [Bool.and_eq_true, beq_iff_eq]
      exact h
    simpa using this
  have hany : (db.any fun r => r.id == todo.ID && r.user_id == userId) = false :=
    List.any_eq_false.mpr (fun r hr => by simp [hf r hr])
  unfold TodosModel.Update
  simp only [hany, Bool.false_eq_true, if_false, Prod.mk.injEq, and_true]
  conv_rhs => rw [← List.map_id db]
  exact List.map_congr_left (fun r hr => by simp [hf r hr])

/-- Claim C5: Update conditions its write on both id and owner matching;
with no matching row it reports an edit conflict — a sentinel distinct from
record-not-found, which the update handler reserves for the preceding Get —
leaves the table unchanged, and never reports silent success; every row it
does write matched both the id and the owner. -/
theorem todosModel_update_conflict (db : List TodoRow) (userId : Int) (todo : Todo)
    (hnone : ∀ r ∈ db, ¬(r.id = todo.ID ∧ r.user_id = userId)) :
    TodosModel.Update db userId todo = (db, some DataErr.editConflict) ∧
    DataErr.editConflict ≠ DataErr.recordNotFound ∧
    (∀ (db2 : List TodoRow) (uid2 : Int) (td2 : Todo) (r2 : TodoRow),
        r2 ∈ (TodosModel.Update db2 uid2 td2).1 →
        r2 ∈ db2 ∨ (r2.id = td2.ID ∧ r2.user_id = uid2)) ∧
    (∀ (id : Int) (input : UpdateInput),
        TodosModel.Get db id userId = .error .recordNotFound →
        updateTodoHandler db userId id input = (.notFoundResp, db)) := by
  refine ⟨update_no_hit db userId todo hnone, by simp, ?_, ?_⟩
  · intro db2 uid2 td2 r2 hr2
    have hfst : (TodosModel.Update db2 uid2 td2).1 =
        db2.map (fun r =>
          if r.id == td2.ID && r.user_id == uid2 then
            { r with title := td2.Title, description := td2.Description,
                     due_date := td2.DueDate, is_completed := td2.IsCompleted }
          else r) := by
      simp only [TodosModel.Update]
      split <;> rfl
    rw [hfst] at hr2
    obtain ⟨r, hr, hfr⟩ := List.mem_map.mp hr2
    by_cases hhit : (r.id == td2.ID && r.user_id == uid2) = true
    · right
      rw [if_pos hhit] at hfr
      simp only [Bool.and_eq_true, beq_iff_eq] at hhit
      rw [← hfr]
      exact hhit
    · left
      rw [if_neg hhit] at hfr
      rw [← hfr]
      exact hr
  · intro id input hget
    unfold updateTodoHandler
    rw [hget]

/-- Witness for C5: updating the only row of the table under the wrong owner
reports an edit conflict and changes nothing. -/
theorem todosModel_update_conflict_witness :
    TodosModel.Update [⟨1, 0, "t", "d", 0, false, 7⟩] 8 ⟨1, 0, "t2", "d2", 0, true⟩ =
      ([⟨1, 0, "t", "d", 0, false, 7⟩], some DataErr.editConflict) := by
  exact (todosModel_update_conflict _ _ _ (by decide)).1

/-! ### Claim theorem: owner-scoped listing -/

/-- Claim C1: whatever the search string, the text-search predicate, and the
(validated) sort and order are, every todo returned by GetAll carries the
caller's user id, and the counted total only counts rows of that owner. -/
theorem getAll_owner_scoped (tsMatch : String → String → Bool) (db : List TodoRow)
    (userId : Int) (search : String) (f : Filters) (out : List TodoRow × Metadata)
    (hv : (ValidateFilters Validator.New f).Valid = true)
    (hout : TodosModel.GetAll tsMatch db userId search f = some out) :
    (∀ r ∈ out.1, r.user_id = userId) ∧
    out.2.TotalRecords = ((db.filter (todosWhere tsMatch userId search)).length : Int) := by
  have hcol : f.sortColumn = some f.SortVal := by
    have hmem := (validateFilters_valid_iff f).mp hv
    rw [Filters.sortColumn, sortColumnScan_eq_some, if_pos hmem.2.2.2.2.1]
  unfold TodosModel.GetAll at hout
  rw [hcol] at hout
  simp only [Option.some.injEq] at hout
  subst hout
  constructor
  · intro r hr
    simp only at hr
    have h1 : r ∈ (db.filter (todosWhere tsMatch userId search)).mergeSort
        (todoRowLE f.SortVal f.sortDirection) :=
      List.mem_of_mem_drop (List.mem_of_mem_take hr)
    have h2 : r ∈ db.filter (todosWhere tsMatch userId search) :=
      List.mem_mergeSort.mp h1
    have h3 := (List.mem_filter.mp h2).2
    unfold todosWhere at h3
    simp only [Bool.and_eq_true, beq_iff_eq] at h3
    exact h3.1
  · rfl

/-- Witness for C1 on a one-row table listed by its owner. -/
theorem getAll_owner_scoped_witness :
    (calculateMetadata 1 1 10).TotalRecords = 1 := by
  have h := getAll_owner_scoped (fun _ _ => true) [⟨1, 0, "a", "b", 0, false, 7⟩] 7 ""
      ⟨1, 10, "created_at", "desc", ["is_complete", "due_date", "created_at"], ["asc", "desc"]⟩
      ([⟨1, 0, "a", "b", 0, false, 7⟩], calculateMetadata 1 1 10) (by decide)
      (by
        unfold TodosModel.GetAll
        norm_num [Filters.sortColumn, sortColumnScan, todosWhere, Filters.offset,
          Filters.limit, List.filter, List.mergeSort_singleton])
  rw [h.2]
  decide

/-! ### Claim theorems: token issuance and verification -/

theorem getForToken_ok_of (sha256 : String → List Nat) (users : List UserRow)
    (tokens : List TokenRow) (now : Int) (pt : String) (uid : Int)
    (hkey : ∀ u ∈ users,
      ((tokens.any fun t => u.id == t.user_id && t.hash == sha256 pt && now < t.expiry))
        = true ↔ u.id = uid)
    (hex : ∃ u ∈ users, u.id = uid) :
    ∃ u, TokensModel.GetForToken sha256 users tokens now none pt = .ok u ∧ u.id = uid := by
  obtain ⟨u0, hu0, hid0⟩ := hex
  have hsome : (users.find? (fun u =>
      tokens.any fun t => u.id == t.user_id && t.hash == sha256 pt && now < t.expiry)).isSome
        = true := by
    rw [List.find?_isSome]
    exact ⟨u0, hu0, (hkey u0 hu0).mpr hid0⟩
  obtain ⟨u, hu⟩ := Option.isSome_iff_exists.mp hsome
  have hmem : u ∈ users := List.mem_of_find?_eq_some hu
  have hp := List.find?_some hu
  refine ⟨u, ?_, (hkey u hmem).mp hp⟩
  simp only [TokensModel.GetForToken]
  rw [hu]

/-- Claim C2: a token minted by New stores the digest of the returned
plaintext as its hash, and presenting that plaintext to GetForToken before
the expiry instant re-derives the same hash, finds the inserted row, and
resolves the user whose id was passed to New. -/
theorem tokensModel_new_roundtrip (sha256 : String → List Nat)
    (base32NoPad : List Nat → String) (users : List UserRow) (tdb : List TokenRow)
    (now ttl now2 userID : Int) (randomBytes : List Nat) (scope : String)
    (httl : 0 < ttl) (hbefore : now2 < now + ttl)
    (hfresh : ∀ t ∈ tdb, t.hash ≠ sha256 (base32NoPad randomBytes))
    (huser : ∃ u ∈ users, u.id = userID) :
    (TokensModel.New sha256 base32NoPad tdb now randomBytes userID ttl scope).1.Hash =
      sha256 (TokensModel.New sha256 base32NoPad tdb now randomBytes userID ttl scope).1.Plaintext ∧
    ∃ u, TokensModel.GetForToken sha256 users
        (TokensModel.New sha256 base32NoPad tdb now randomBytes userID ttl scope).2 now2 none
        (TokensModel.New sha256 base32NoPad tdb now randomBytes userID ttl scope).1.Plaintext =
          .ok u ∧ u.id = userID := by
  refine ⟨rfl, ?_⟩
  have hplain : (TokensModel.New sha256 base32NoPad tdb now randomBytes userID ttl scope).1.Plaintext
      = base32NoPad randomBytes := rfl
  have hdb : (TokensModel.New sha256 base32NoPad tdb now randomBytes userID ttl scope).2
      = tdb ++ [⟨sha256 (base32NoPad randomBytes), userID, now + ttl, scope⟩] := rfl
  rw [hplain, hdb]
  apply getForToken_ok_of
  · intro u _
    constructor
    · intro h
      obtain ⟨t, ht, hp⟩ := List.any_eq_true.mp h
      rcases List.mem_append.mp ht with htl | htr
      · exfalso
        simp only [Bool.and_eq_true, beq_iff_eq, decide_eq_true_eq] at hp
        exact hfresh t htl hp.1.2
      · simp only [List.mem_singleton] at htr
        subst htr
        simp only [Bool.and_eq_true, beq_iff_eq, decide_eq_true_eq] at hp
        exact hp.1.1
    · intro h
      refine List.any_eq_true.mpr
        ⟨⟨sha256 (base32NoPad randomBytes), userID, now + ttl, scope⟩,
          List.mem_append_right _ (List.mem_singleton.mpr rfl), ?_⟩
      simp [h, hbefore]
  · exact huser

/-- Witness for C2: a concrete digest and encoder; the stored hash is the
digest of the returned plaintext. -/
theorem tokensModel_new_roundtrip_witness :
    (TokensModel.New (fun s => [s.length]) (fun _ => "TOKEN") [] 0 [1, 2, 3] 5 60
      "Authentication").1.Hash = [5] := by
  have h := tokensModel_new_roundtrip (fun s => [s.length]) (fun _ => "TOKEN")
      [⟨5, 0, "e", []⟩] [] 0 60 30 5 [1, 2, 3] "Authentication"
      (by norm_num) (by norm_num) (by simp) ⟨⟨5, 0, "e", []⟩, by simp, rfl⟩
  rw [h.1]
  rfl

/-- Claim C3: a plaintext that was never issued and a plaintext whose
stored rows are all expired both fail with exactly ErrRecordNotFound, while
any other storage failure is passed through as a distinct error. -/
theorem getForToken_error_cases (sha256 : String → List Nat) (users : List UserRow)
    (tokens : List TokenRow) (now : Int) (pt pt2 e : String)
    (hnever : ∀ t ∈ tokens, t.hash ≠ sha256 pt)
    (hexpired : ∀ t ∈ tokens, t.hash = sha256 pt2 → t.expiry ≤ now) :
    TokensModel.GetForToken sha256 users tokens now none pt = .error .recordNotFound ∧
    TokensModel.GetForToken sha256 users tokens now none pt2 = .error .recordNotFound ∧
    TokensModel.GetForToken sha256 users tokens now (some e) pt
      = .error (.backendFailure e) ∧
    TokenErr.backendFailure e ≠ TokenErr.recordNotFound := by
  refine ⟨?_, ?_, rfl, by simp⟩
  · have hnone : users.find? (fun u =>
        tokens.any fun t => u.id == t.user_id && t.hash == sha256 pt && now < t.expiry)
          = none := by
      rw [List.find?_eq_none]
      intro u _
      intro hcontra
      obtain ⟨t, ht, hp⟩ := List.any_eq_true.mp hcontra
      simp only [Bool.and_eq_true, beq_iff_eq, decide_eq_true_eq] at hp
      exact absurd hp.1.2 (hnever t ht)
    simp only [TokensModel.GetForToken]
    rw [hnone]
  · have hnone : users.find? (fun u =>
        tokens.any fun t => u.id == t.user_id && t.hash == sha256 pt2 && now < t.expiry)
          = none := by
      rw [List.find?_eq_none]
      intro u _
      intro hcontra
      obtain ⟨t, ht, hp⟩ := List.any_eq_true.mp hcontra
      simp only [Bool.and_eq_true, beq_iff_eq, decide_eq_true_eq] at hp
      exact absurd hp.2 (not_lt.mpr (hexpired t ht hp.1.2))
    simp only [TokensModel.GetForToken]
    rw [hnone]

/-- Witness for C3: an unissued plaintext and an expired one both yield
record-not-found; an injected storage fault yields the distinct error. -/
theorem getForToken_error_cases_witness :
    TokensModel.GetForToken (fun s => [s.length]) [⟨1, 0, "e", []⟩] [⟨[9], 1, 5, "s"⟩] 9
        none "ab" = .error .recordNotFound ∧
    TokensModel.GetForToken (fun s => [s.length]) [⟨1, 0, "e", []⟩] [⟨[9], 1, 5, "s"⟩] 9
        none "abcdefghi" = .error .recordNotFound ∧
    TokensModel.GetForToken (fun s => [s.length]) [⟨1, 0, "e", []⟩] [⟨[9], 1, 5, "s"⟩] 9
        (some "boom") "ab" = .error (.backendFailure "boom") := by
  have h := getForToken_error_cases (fun s => [s.length]) [⟨1, 0, "e", []⟩]
      [⟨[9], 1, 5, "s"⟩] 9 "ab" "abcdefghi" "boom" (by decide) (by decide)
  exact ⟨h.1, h.2.1, h.2.2.1⟩

/-! ### Claim theorem: auth middleware -/

theorem stringsSplitSpace_empty : stringsSplitSpace "" = [""] := rfl

/-- Disposition of the middleware: either the header splits as Bearer plus a
non-empty token and the outcome is dictated by GetForToken alone, or it does
not and the request is rejected as invalid without consulting storage. -/
theorem middleware_shape (sha256 : String → List Nat) (users : List UserRow)
    (tokens : List TokenRow) (now : Int) (fault : Option String) (hdr : String) :
    (∃ tok, stringsSplitSpace hdr = ["Bearer", tok] ∧ tok ≠ "" ∧
      protectedRouteMiddleware sha256 users tokens now fault hdr =
        (match TokensModel.GetForToken sha256 users tokens now fault tok with
         | .error .recordNotFound => AuthOutcome.rejectedInvalidHeader
         | .error (.backendFailure _) => AuthOutcome.rejectedServerFailure
         | .ok u => AuthOutcome.forwarded u)) ∨
    ((¬∃ tok, stringsSplitSpace hdr = ["Bearer", tok] ∧ tok ≠ "") ∧
      protectedRouteMiddleware sha256 users tokens now fault hdr =
        AuthOutcome.rejectedInvalidHeader) := by
  by_cases h0 : hdr = ""
  · subst h0
    right
    refine ⟨?_, rfl⟩
    rintro ⟨tok, hsp, -⟩
    rw [stringsSplitSpace_empty] at hsp
    simp at hsp
  · have h0b : (hdr == "") = false := by simpa using h0
    rcases hparts : stringsSplitSpace hdr with _ | ⟨a, _ | ⟨b, _ | ⟨c, rest⟩⟩⟩
    · right
      refine ⟨?_, ?_⟩
      · rintro ⟨tok, hsp, -⟩
        simp at hsp
      · simp [protectedRouteMiddleware, h0b, hparts]
    · right
      refine ⟨?_, ?_⟩
      · rintro ⟨tok, hsp, -⟩
        simp at hsp
      · simp [protectedRouteMiddleware, h0b, hparts]
    · by_cases hA : a = "Bearer"
      · subst hA
        by_cases hB : b = ""
        · subst hB
          right
          refine ⟨?_, ?_⟩
          · rintro ⟨tok, hsp, htok⟩
            exact htok (by simpa using hsp.symm)
          · simp [protectedRouteMiddleware, h0b, hparts, ValidateTokenPlainText,
              Validator.Check, Validator.AddError, Validator.New, Validator.Valid,
              Validator.hasError]
        · left
          have hBb : (b == "") = false := by simpa using hB
          refine ⟨b, rfl, hB, ?_⟩
          simp [protectedRouteMiddleware, h0b, hparts, hB, hBb, ValidateTokenPlainText,
            Validator.Check, Validator.New, Validator.Valid]
      · right
        have hAb : (a == "Bearer") = false := by simpa using hA
        refine ⟨?_, ?_⟩
        · rintro ⟨tok, hsp, -⟩
          have h2 : a = "Bearer" ∧ b = tok := by simpa using hsp
          exact hA h2.1
        · simp [protectedRouteMiddleware, h0b, hparts, hA, hAb]
    · right
      refine ⟨?_, ?_⟩
      · rintro ⟨tok, hsp, -⟩
        simp at hsp
      · have hlen : ((a :: b :: c :: rest).length != 2) = true := by
          simp only [List.length_cons, bne_iff_ne, Ne]
          omega
        simp [protectedRouteMiddleware, h0b, hparts, hlen]

/-- Claim C4: the wrapped handler runs if and only if the Authorization
header splits on spaces into exactly Bearer plus one non-empty token that
GetForToken resolves; a missing, malformed, or empty-token header is
rejected as invalid-authentication for every storage state and fault (so
without any storage lookup), GetForToken's record-not-found yields the same
rejection, and any other GetForToken error yields the generic server
error. -/
theorem protectedRouteMiddleware_gate (sha256 : String → List Nat) (users : List UserRow)
    (tokens : List TokenRow) (now : Int) (fault : Option String) (hdr : String) :
    ((∃ u, protectedRouteMiddleware sha256 users tokens now fault hdr
        = AuthOutcome.forwarded u) ↔
      (∃ tok u, stringsSplitSpace hdr = ["Bearer", tok] ∧ tok ≠ "" ∧
        TokensModel.GetForToken sha256 users tokens now fault tok = .ok u)) ∧
    (∀ tok, stringsSplitSpace hdr = ["Bearer", tok] → tok ≠ "" →
      TokensModel.GetForToken sha256 users tokens now fault tok = .error .recordNotFound →
      protectedRouteMiddleware sha256 users tokens now fault hdr
        = AuthOutcome.rejectedInvalidHeader) ∧
    (∀ tok e2, stringsSplitSpace hdr = ["Bearer", tok] → tok ≠ "" →
      TokensModel.GetForToken sha256 users tokens now fault tok
          = .error (.backendFailure e2) →
      protectedRouteMiddleware sha256 users tokens now fault hdr
        = AuthOutcome.rejectedServerFailure) ∧
    ((¬∃ tok, stringsSplitSpace hdr = ["Bearer", tok] ∧ tok ≠ "") →
      protectedRouteMiddleware sha256 users tokens now fault hdr
        = AuthOutcome.rejectedInvalidHeader) := by
  rcases middleware_shape sha256 users tokens now fault hdr with
    ⟨tok0, hsp0, htok0, heq⟩ | ⟨hne, heq⟩
  · refine ⟨?_, ?_, ?_, ?_⟩
    · constructor
      · rintro ⟨u, hu⟩
        refine ⟨tok0, u, hsp0, htok0, ?_⟩
        rw [heq] at hu
        rcases hg : TokensModel.GetForToken sha256 users tokens now fault tok0 with e | u2
        · rcases e with - | e2 <;> rw [hg] at hu <;> simp at hu
        · rw [hg] at hu
          simp only [AuthOutcome.forwarded.injEq] at hu
          rw [hu]
      · rintro ⟨tok, u, hsp, htok, hok⟩
        have htt : tok = tok0 := by
          rw [hsp] at hsp0
          simpa using hsp0
        subst htt
        exact ⟨u, by rw [heq, hok]⟩
    · intro tok hsp htok hnf
      have htt : tok = tok0 := by
        rw [hsp] at hsp0
        simpa using hsp0
      subst htt
      rw [heq, hnf]
    · intro tok e2 hsp htok hbf
      have htt : tok = tok0 := by
        rw [hsp] at hsp0
        simpa using hsp0
      subst htt
      rw [heq, hbf]
    · intro hcon
      exact absurd ⟨tok0, hsp0, htok0⟩ hcon
  · refine ⟨?_, ?_, ?_, fun _ => heq⟩
    · constructor
      · rintro ⟨u, hu⟩
        rw [heq] at hu
        simp at hu
      · rintro ⟨tok, u, hsp, htok, -⟩
        exact absurd ⟨tok, hsp, htok⟩ hne
    · intro tok hsp htok _
      exact heq
    · intro tok e2 hsp htok _
      exact absurd ⟨tok, hsp, htok⟩ hne

/-- Witness for C4: a well-formed header over empty storage is rejected as
invalid, as is a header with a non-Bearer scheme even under an injected
storage fault. -/
theorem protectedRouteMiddleware_gate_witness :
    protectedRouteMiddleware (fun s => [s.length]) [] [] 0 none "Bearer abc"
      = AuthOutcome.rejectedInvalidHeader ∧
    protectedRouteMiddleware (fun s => [s.length]) [] [] 0 (some "down") "Token abc"
      = AuthOutcome.rejectedInvalidHeader := by
  constructor
  · exact (protectedRouteMiddleware_gate (fun s => [s.length]) [] [] 0 none
      "Bearer abc").2.1 "abc" rfl (by decide) rfl
  · exact (protectedRouteMiddleware_gate (fun s => [s.length]) [] [] 0 (some "down")
      "Token abc").2.2.2 (by
        rintro ⟨tok, hsp, -⟩
        rw [show stringsSplitSpace "Token abc" = ["Token", "abc"] from rfl] at hsp
        simp at hsp)
